import Mathlib

/-!
Verification of the photo-receiving TCP server (src/server/servidor.py).

The server reads a 4-byte big-endian length header, then exactly that many
payload bytes, saves them to a date-partitioned directory and answers "OK".
We embed the byte-level protocol logic shallowly: bytes are `Nat`s, a socket
stream is a list of chunks (each chunk the bytes one `recv` call can yield),
and file-system and clock effects are made explicit parameters.
-/

namespace PhotoServer

/-- A socket stream: the data the peer sent, as the sequence of chunks that
successive `recv` calls observe.  An exhausted list means the peer closed the
connection (further `recv` calls return the empty byte string). -/
abbrev Stream := List (List Nat)

/-- Embedding of the `while len(data) < size` loop of `_receive_all`.
`data` is the accumulator, `size` the requested byte count, `chunks` the
remaining stream.  Each iteration issues `recv (size - len data)`, which
returns at most that many bytes taken from the front of the stream; an empty
result means the peer closed and the function returns `None` (here `none`).
When a chunk holds more bytes than requested, the loop consumes the requested
prefix, the accumulator reaches `size`, the loop condition fails and the
accumulated data is returned with the chunk remainder still unread.
The second component is the unread remainder of the stream. -/
def receiveAllGo (data : List Nat) (size : Nat) (chunks : Stream) :
    Option (List Nat) × Stream :=
  if data.length < size then
    match chunks with
    | [] => (none, [])
    | c :: rest =>
      if c.isEmpty then (none, c :: rest)
      else if c.length ≤ size - data.length then
        receiveAllGo (data ++ c) size rest
      else
        (some (data ++ c.take (size - data.length)),
         c.drop (size - data.length) :: rest)
  else
    (some data, chunks)

/-- `_receive_all(sock, size)`: read exactly `size` bytes from the stream,
returning `none` if the peer closes first, together with the unread rest of
the stream. -/
def receiveAll (chunks : Stream) (size : Nat) : Option (List Nat) × Stream :=
  receiveAllGo [] size chunks

/-- `struct.unpack('>I', b)[0]` on a 4-byte string: big-endian base-256 value. -/
def beU32 (b : List Nat) : Nat :=
  b.foldl (fun acc x => acc * 256 + x) 0

/-- The client-side `struct.pack('>I', n)`: the 4-byte big-endian encoding of
`n`, as the wire protocol prescribes for the framing header. -/
def encodeBE32 (n : Nat) : List Nat :=
  [n / 16777216 % 256, n / 65536 % 256, n / 256 % 256, n % 256]

/-- Embedding of `_save_and_display_image`: it writes the payload to a file
and schedules the GUI update, but wraps everything in `try/except Exception`,
so from the caller it always returns normally; the returned value records the
contents of the file actually created (`none` when the storage step failed).
`storageFails` models the file write raising (disk full, permission). -/
def saveAndDisplayImage (storageFails : Bool) (imageData : List Nat) :
    Option (List Nat) :=
  if storageFails then none else some imageData

/-- Observable outcome of one `_handle_client` invocation: the contents of the
file it created (if any), whether the 2-byte "OK" acknowledgement was sent,
and whether the client socket was closed on exit. -/
structure HandlerResult where
  savedFile : Option (List Nat)
  sentOK : Bool
  closed : Bool
deriving DecidableEq, Repr

/-- Embedding of `_handle_client`: read 4 header bytes (aborting when
`_receive_all` returns `None` or an empty string, the Python
`if not size_data: return`), decode them big-endian, read that many payload
bytes (same falsiness check), save via `_save_and_display_image` (which never
raises to the caller), then send "OK".  `sendFails` models `send` raising;
the exception is caught by the handler and the `finally` block closes the
socket on every path, which the embedding records as `closed := true` in
every branch. -/
def handleClient (storageFails sendFails : Bool) (chunks : Stream) :
    HandlerResult :=
  let r1 := receiveAll chunks 4
  match r1.fst with
  | none => { savedFile := none, sentOK := false, closed := true }
  | some sizeData =>
    if sizeData.isEmpty then { savedFile := none, sentOK := false, closed := true }
    else
      let imageSize := beU32 sizeData
      let r2 := receiveAll r1.snd imageSize
      match r2.fst with
      | none => { savedFile := none, sentOK := false, closed := true }
      | some imageData =>
        if imageData.isEmpty then
          { savedFile := none, sentOK := false, closed := true }
        else
          { savedFile := saveAndDisplayImage storageFails imageData,
            sentOK := !sendFails,
            closed := true }

/-- A wall-clock instant as `datetime.now()` exposes it to this program. -/
structure DateTime where
  year : Nat
  month : Nat
  day : Nat
  hour : Nat
  minute : Nat
  second : Nat
deriving DecidableEq, Repr

/-- Zero-pad a number to two digits, as `strftime` field formats do. -/
def pad2 (n : Nat) : String :=
  if n < 10 then "0" ++ toString n else toString n

/-- Zero-pad a year to four digits (`%Y`). -/
def pad4 (n : Nat) : String :=
  if n < 10 then "000" ++ toString n
  else if n < 100 then "00" ++ toString n
  else if n < 1000 then "0" ++ toString n
  else toString n

/-- `strftime('%Y-%m-%d')`. -/
def formatDate (dt : DateTime) : String :=
  pad4 dt.year ++ "-" ++ pad2 dt.month ++ "-" ++ pad2 dt.day

/-- `strftime('%H%M%S')`. -/
def formatHMS (dt : DateTime) : String :=
  pad2 dt.hour ++ pad2 dt.minute ++ pad2 dt.second

/-- A filesystem path as its list of components; `os.path.join` appends. -/
abbrev FsPath := List String

/-- `create_data_directory` computes `self.data_dir`: the script directory
joined with `data` and the current date.  It runs once, in `__init__`, so the
date is taken from the clock at server initialization. -/
def dataDirPath (baseDir : FsPath) (initTime : DateTime) : FsPath :=
  baseDir ++ ["data", formatDate initTime]

/-- The file path `_save_and_display_image` writes to: `self.data_dir` joined
with `HHMMSS.jpg`, the time taken from the clock at save time. -/
def savedFilePath (dataDir : FsPath) (saveTime : DateTime) : FsPath :=
  dataDir ++ [formatHMS saveTime ++ ".jpg"]

/-- The complete path of a saved payload as the server computes it: the date
component comes from the initialization-time clock (`create_data_directory`
is only called from `__init__`), the time-of-day from the save-time clock. -/
def serverSavedPath (baseDir : FsPath) (initTime saveTime : DateTime) : FsPath :=
  savedFilePath (dataDirPath baseDir initTime) saveTime

/-- Modelled from the spec (claim wording): the path the claim describes,
with BOTH the date directory and the HHMMSS filename derived from the clock
at the time the payload is saved. -/
def claimSavedPath (baseDir : FsPath) (saveTime : DateTime) : FsPath :=
  baseDir ++ ["data", formatDate saveTime, formatHMS saveTime ++ ".jpg"]

/-- Amended path shape: date from the initialization clock, time of day from
the save-time clock, written out directly. -/
def amendedSavedPath (baseDir : FsPath) (initTime saveTime : DateTime) : FsPath :=
  baseDir ++ ["data", formatDate initTime, formatHMS saveTime ++ ".jpg"]

/-- A filesystem: the set of existing directories and the files with their
contents. -/
structure FileSystem where
  dirs : List FsPath
  files : List (FsPath × List Nat)
deriving DecidableEq

/-- Every ancestor directory of `p` (including `p` itself), the directories
`os.makedirs` creates when `p` is absent. -/
def ancestors (p : FsPath) : List FsPath :=
  (List.range p.length).map (fun i => p.take (i + 1))

/-- `os.makedirs(p, exist_ok)`: create `p` and its missing ancestors; when
`p` already exists, raise `FileExistsError` unless `exist_ok` is set, in
which case the filesystem is returned untouched.  Files are never modified. -/
def makedirs (fs : FileSystem) (p : FsPath) (existOk : Bool) :
    Except String FileSystem :=
  if p ∈ fs.dirs then
    if existOk then Except.ok fs else Except.error "FileExistsError"
  else
    Except.ok { fs with dirs := ancestors p ++ fs.dirs }

/-- `create_data_directory` as a filesystem action: compute the dated data
directory and `os.makedirs(..., exist_ok=True)` it. -/
def createDataDirectory (fs : FileSystem) (baseDir : FsPath)
    (initTime : DateTime) : Except String (FileSystem × FsPath) :=
  match makedirs fs (dataDirPath baseDir initTime) true with
  | Except.ok fs2 => Except.ok (fs2, dataDirPath baseDir initTime)
  | Except.error e => Except.error e

/-- The mutable server state the accept loop and `stop_server` share: the
`self.running` flag and whether the listening socket is open. -/
structure ServerState where
  running : Bool
  socketOpen : Bool
deriving DecidableEq, Repr

/-- `stop_server`: set `self.running = False`, then close the listening
socket (which makes the blocked `accept` raise `OSError`). -/
def stopServer (_s : ServerState) : ServerState :=
  { running := false, socketOpen := false }

/-- Outcome of one iteration of the accept loop in `_run_server`. -/
inductive LoopOutcome where
  | looping
  | exitClean
  | exitError
deriving DecidableEq, Repr

/-- One iteration of the `while self.running` accept loop.  `runningAtCheck`
is the flag value the `while` condition observes, `runningAtError` the value
the `except OSError` branch observes (they can differ because `stop_server`
runs concurrently while `accept` blocks).  A raised `accept` is caught: with
the flag already false the loop breaks cleanly, otherwise it logs an accept
error and also breaks; no exception escapes the loop body. -/
def acceptIteration (runningAtCheck runningAtError acceptRaised : Bool) :
    LoopOutcome :=
  if runningAtCheck then
    if acceptRaised then
      if runningAtError then LoopOutcome.exitError else LoopOutcome.exitClean
    else LoopOutcome.looping
  else LoopOutcome.exitClean

/-- Master lemma for `_receive_all`, success side: when every chunk of the
stream is non-empty (the peer has not closed) and the stream carries at least
the missing bytes, the loop returns the accumulator extended with exactly the
next `size - data.length` bytes of the stream, in order, and leaves the rest
of the stream unread. -/
theorem receiveAllGo_complete (chunks : Stream) : ∀ (data : List Nat) (size : Nat),
    (∀ c ∈ chunks, c ≠ []) → data.length ≤ size →
    size ≤ data.length + chunks.flatten.length →
    ∃ rest : Stream,
      receiveAllGo data size chunks =
        (some (data ++ chunks.flatten.take (size - data.length)), rest) ∧
      rest.flatten = chunks.flatten.drop (size - data.length) ∧
      ∀ c ∈ rest, c ≠ [] := by
  induction chunks with
  | nil =>
    intro data size _ hle hge
    have hsz : size = data.length := by
      simp only [List.flatten_nil, List.length_nil, Nat.add_zero] at hge
      omega
    refine ⟨[], ?_, by simp, by simp⟩
    rw [receiveAllGo.eq_def]
    simp [hsz]
  | cons c rest ih =>
    intro data size hne hle hge
    have hc : c ≠ [] := hne c (List.mem_cons_self c rest)
    have hcE : c.isEmpty = false := by
      cases c with
      | nil => exact absurd rfl hc
      | cons a t => rfl
    have hclen : 0 < c.length := List.length_pos.mpr hc
    simp only [List.flatten_cons, List.length_append] at hge
    by_cases hlt : data.length < size
    · by_cases hcl : c.length ≤ size - data.length
      · have hstep : receiveAllGo data size (c :: rest) =
            receiveAllGo (data ++ c) size rest := by
          rw [receiveAllGo.eq_def]
          simp [hlt, hcE, hcl]
        obtain ⟨r2, heq, hjoin, hner⟩ := ih (data ++ c) size
          (fun x hx => hne x (List.mem_cons_of_mem c hx))
          (by simp only [List.length_append]; omega)
          (by simp only [List.length_append]; omega)
        have htake : (c ++ rest.flatten).take (size - data.length)
            = c ++ rest.flatten.take (size - data.length - c.length) := by
          rw [List.take_append_eq_append_take, List.take_of_length_le hcl]
        have hdrop : (c ++ rest.flatten).drop (size - data.length)
            = rest.flatten.drop (size - data.length - c.length) := by
          rw [List.drop_append_eq_append_drop, List.drop_eq_nil_of_le hcl,
            List.nil_append]
        have hm : size - (data ++ c).length = size - data.length - c.length := by
          simp only [List.length_append]; omega
        refine ⟨r2, ?_, ?_, hner⟩
        · rw [hstep, heq, List.flatten_cons, htake, hm, List.append_assoc]
        · rw [hjoin, hm, List.flatten_cons, hdrop]
      · push_neg at hcl
        refine ⟨c.drop (size - data.length) :: rest, ?_, ?_, ?_⟩
        · rw [receiveAllGo.eq_def]
          simp only [hlt, if_true, hcE, Bool.false_eq_true, if_false,
            Nat.not_le.mpr hcl, List.flatten_cons]
          rw [List.take_append_of_le_length (Nat.le_of_lt hcl)]
        · rw [List.flatten_cons, List.flatten_cons,
            List.drop_append_of_le_length (Nat.le_of_lt hcl)]
        · intro x hx
          rcases List.mem_cons.mp hx with hx1 | hx2
          · subst hx1
            have hxlen : 0 < (c.drop (size - data.length)).length := by
              rw [List.length_drop]; omega
            exact List.length_pos.mp hxlen
          · exact hne x (List.mem_cons_of_mem c hx2)
    · have hsz : size = data.length := by omega
      refine ⟨c :: rest, ?_, by simp [hsz], hne⟩
      rw [receiveAllGo.eq_def]
      simp [hlt, hsz]

/-- Master lemma for `_receive_all`, closed-stream side: when every chunk is
non-empty but the whole stream carries fewer bytes than requested, the loop
drains the stream, a `recv` call then returns the empty byte string, and the
function returns `None`. -/
theorem receiveAllGo_incomplete (chunks : Stream) : ∀ (data : List Nat) (size : Nat),
    (∀ c ∈ chunks, c ≠ []) →
    data.length + chunks.flatten.length < size →
    (receiveAllGo data size chunks).fst = none := by
  induction chunks with
  | nil =>
    intro data size _ hlt
    simp only [List.flatten_nil, List.length_nil, Nat.add_zero] at hlt
    rw [receiveAllGo.eq_def]
    simp [hlt]
  | cons c rest ih =>
    intro data size hne hlt
    have hc : c ≠ [] := hne c (List.mem_cons_self c rest)
    have hcE : c.isEmpty = false := by
      cases c with
      | nil => exact absurd rfl hc
      | cons a t => rfl
    simp only [List.flatten_cons, List.length_append] at hlt
    have hdlt : data.length < size := by omega
    have hcl : c.length ≤ size - data.length := by omega
    have hstep : receiveAllGo data size (c :: rest) =
        receiveAllGo (data ++ c) size rest := by
      rw [receiveAllGo.eq_def]
      simp [hdlt, hcE, hcl]
    rw [hstep]
    exact ih (data ++ c) size
      (fun x hx => hne x (List.mem_cons_of_mem c hx))
      (by simp only [List.length_append]; omega)

/-- `receiveAll` on a non-closed stream holding at least `size` bytes returns
exactly the first `size` bytes of the stream and leaves the remainder. -/
theorem receiveAll_complete (chunks : Stream) (size : Nat)
    (hne : ∀ c ∈ chunks, c ≠ []) (hge : size ≤ chunks.flatten.length) :
    ∃ rest, receiveAll chunks size = (some (chunks.flatten.take size), rest) ∧
      rest.flatten = chunks.flatten.drop size ∧ ∀ c ∈ rest, c ≠ [] := by
  obtain ⟨rest, h1, h2, h3⟩ := receiveAllGo_complete chunks [] size hne
    (by simp) (by simpa using hge)
  refine ⟨rest, ?_, by simpa using h2, h3⟩
  simpa [receiveAll] using h1

/-- `receiveAll` on a stream that closes before `size` bytes returns `none`. -/
theorem receiveAll_incomplete (chunks : Stream) (size : Nat)
    (hne : ∀ c ∈ chunks, c ≠ []) (hlt : chunks.flatten.length < size) :
    (receiveAll chunks size).fst = none :=
  receiveAllGo_incomplete chunks [] size hne (by simpa using hlt)

/-- Decoding the 4-byte big-endian encoding of `n < 2^32` gives back `n`. -/
theorem beU32_encodeBE32 (n : Nat) (h : n < 4294967296) :
    beU32 (encodeBE32 n) = n := by
  simp only [beU32, encodeBE32, List.foldl_cons, List.foldl_nil]
  omega

/-- Any 4 bytes decode to a value below `2^32`. -/
theorem beU32_lt_of_bytes (b : List Nat) (h4 : b.length = 4)
    (hb : ∀ x ∈ b, x < 256) : beU32 b < 4294967296 := by
  cases b with
  | nil => simp at h4
  | cons a t =>
  cases t with
  | nil => simp at h4
  | cons b1 t =>
  cases t with
  | nil => simp at h4
  | cons c1 t =>
  cases t with
  | nil => simp at h4
  | cons d1 t =>
  cases t with
  | cons e1 t => simp at h4
  | nil =>
    have ha := hb a (by simp)
    have hb1 := hb b1 (by simp)
    have hc1 := hb c1 (by simp)
    have hd1 := hb d1 (by simp)
    simp only [beU32, List.foldl_cons, List.foldl_nil]
    omega

/-- Shared lemma: on a stream that is any non-empty-chunk fragmentation of a
correct header (declaring `P.length`) followed by the full payload `P ≠ []`,
`_handle_client` reads the header and the payload, calls the storage step,
and reaches the acknowledgement send; the socket is closed at exit. -/
theorem handleClient_success (storageFails sendFails : Bool) (P : List Nat)
    (chunks : Stream) (hP : P ≠ []) (hlen : P.length < 4294967296)
    (hch : ∀ c ∈ chunks, c ≠ [])
    (hjoin : chunks.flatten = encodeBE32 P.length ++ P) :
    handleClient storageFails sendFails chunks =
      { savedFile := saveAndDisplayImage storageFails P,
        sentOK := !sendFails, closed := true } := by
  have h4 : (encodeBE32 P.length).length = 4 := rfl
  have hflen : chunks.flatten.length = 4 + P.length := by
    rw [hjoin, List.length_append, h4]
  obtain ⟨rest, hr1, hrj, hrne⟩ := receiveAll_complete chunks 4 hch (by omega)
  have htake4 : chunks.flatten.take 4 = encodeBE32 P.length := by
    rw [hjoin, List.take_append_of_le_length (by rw [h4]), ← h4,
      List.take_length]
  have hrestP : rest.flatten = P := by
    rw [hrj, hjoin, List.drop_append_of_le_length (by rw [h4]), ← h4,
      List.drop_length, List.nil_append]
  obtain ⟨rest2, hr2, _, _⟩ := receiveAll_complete rest P.length hrne
    (by rw [hrestP])
  have hEnc : (encodeBE32 P.length).isEmpty = false := rfl
  have hPE : P.isEmpty = false := by
    cases P with
    | nil => exact absurd rfl hP
    | cons a t => rfl
  simp only [handleClient, hr1, htake4, hEnc, Bool.false_eq_true, if_false,
    beU32_encodeBE32 P.length hlen, hr2, hrestP, List.take_length, hPE]

/-- Shared lemma: on a stream whose header declares `n` bytes but whose
payload part `Q` is shorter (the peer closed early), `_handle_client` aborts
after the failed payload read: no file, no acknowledgement, socket closed. -/
theorem handleClient_truncated (storageFails sendFails : Bool) (n : Nat)
    (Q : List Nat) (chunks : Stream) (hn : n < 4294967296)
    (hch : ∀ c ∈ chunks, c ≠ []) (hQ : Q.length < n)
    (hjoin : chunks.flatten = encodeBE32 n ++ Q) :
    handleClient storageFails sendFails chunks =
      { savedFile := none, sentOK := false, closed := true } := by
  have h4 : (encodeBE32 n).length = 4 := rfl
  have hflen : chunks.flatten.length = 4 + Q.length := by
    rw [hjoin, List.length_append, h4]
  obtain ⟨rest, hr1, hrj, hrne⟩ := receiveAll_complete chunks 4 hch (by omega)
  have htake4 : chunks.flatten.take 4 = encodeBE32 n := by
    rw [hjoin, List.take_append_of_le_length (by rw [h4]), ← h4,
      List.take_length]
  have hrestQ : rest.flatten = Q := by
    rw [hrj, hjoin, List.drop_append_of_le_length (by rw [h4]), ← h4,
      List.drop_length, List.nil_append]
  have hfail : (receiveAll rest n).fst = none :=
    receiveAll_incomplete rest n hrne (by rw [hrestQ]; exact hQ)
  have hEnc : (encodeBE32 n).isEmpty = false := rfl
  simp only [handleClient, hr1, htake4, hEnc, Bool.false_eq_true, if_false,
    beU32_encodeBE32 n hn, hfail]

/-- Round-trip on arbitrary byte strings requires the encode/decode pair to
be mutually inverse; this is the other direction of `beU32_encodeBE32`. -/
theorem encodeBE32_beU32 (b : List Nat) (h4 : b.length = 4)
    (hb : ∀ x ∈ b, x < 256) : encodeBE32 (beU32 b) = b := by
  cases b with
  | nil => simp at h4
  | cons a t =>
  cases t with
  | nil => simp at h4
  | cons b1 t =>
  cases t with
  | nil => simp at h4
  | cons c1 t =>
  cases t with
  | nil => simp at h4
  | cons d1 t =>
  cases t with
  | cons e1 t => simp at h4
  | nil =>
    have ha := hb a (by simp)
    have hb1 := hb b1 (by simp)
    have hc1 := hb c1 (by simp)
    have hd1 := hb d1 (by simp)
    simp only [beU32, encodeBE32, List.foldl_cons, List.foldl_nil,
      List.cons.injEq, and_true]
    omega

/-- C1 counterexample: for the empty byte sequence, the client sends the
header `00 00 00 00` and nothing else; `_receive_all` then returns the empty
byte string, `_handle_client`'s falsiness check treats it as a failed read,
and the server creates no file and sends no "OK" — refuting the claim at
`P = []`. -/
theorem C1_counterexample :
    handleClient false false [encodeBE32 (List.length ([] : List Nat))] =
      { savedFile := none, sentOK := false, closed := true } ∧
    handleClient false false [encodeBE32 (List.length ([] : List Nat))] ≠
      { savedFile := some [], sentOK := true, closed := true } := by
  decide

/-- C1 (amended): for every NON-EMPTY byte sequence `P` whose length fits the
4-byte header, a client that sends `len(P)` as a big-endian 4-byte header
followed by the bytes of `P` — however the stream is fragmented into
non-empty chunks — causes the server to create exactly one file whose
contents equal `P` byte-for-byte and to send the 2-byte "OK" acknowledgement
back on the same connection. -/
theorem C1_roundTrip (P : List Nat) (chunks : Stream)
    (hP : P ≠ []) (hlen : P.length < 4294967296)
    (hch : ∀ c ∈ chunks, c ≠ [])
    (hjoin : chunks.flatten = encodeBE32 P.length ++ P) :
    handleClient false false chunks =
      { savedFile := some P, sentOK := true, closed := true } := by
  simpa [saveAndDisplayImage] using
    handleClient_success false false P chunks hP hlen hch hjoin

/-- C1 witness: the two-byte payload `[104, 105]`, fragmented across two
chunks that split mid-payload, is saved byte-for-byte and acknowledged. -/
theorem C1_roundTrip_witness :
    handleClient false false [[0, 0, 0, 2, 104], [105]] =
      { savedFile := some [104, 105], sentOK := true, closed := true } :=
  C1_roundTrip [104, 105] [[0, 0, 0, 2, 104], [105]] (by decide) (by decide)
    (by decide) (by decide)

/-- C2 counterexample: a valid 1-byte transfer whose storage step fails.
`_save_and_display_image` catches the exception itself and returns normally,
so `_handle_client` proceeds to `send(b"OK")`: the acknowledgement IS sent
even though no file was created, refuting the claim. -/
theorem C2_counterexample :
    (handleClient true false [[0, 0, 0, 1, 65]]).savedFile = none ∧
    (handleClient true false [[0, 0, 0, 1, 65]]).sentOK = true := by
  decide

/-- C2 (amended): when the storage step fails no file is created, but because
`_save_and_display_image` catches its own exception, the transfer is NOT
aborted: for every connection whose reads succeeded, the handler still sends
the "OK" confirmation before the connection is closed. -/
theorem C2_storageFailureStillAcks (P : List Nat) (chunks : Stream)
    (hP : P ≠ []) (hlen : P.length < 4294967296)
    (hch : ∀ c ∈ chunks, c ≠ [])
    (hjoin : chunks.flatten = encodeBE32 P.length ++ P) :
    handleClient true false chunks =
      { savedFile := none, sentOK := true, closed := true } := by
  simpa [saveAndDisplayImage] using
    handleClient_success true false P chunks hP hlen hch hjoin

/-- C2 witness: a concrete failing-storage transfer still acknowledges. -/
theorem C2_storageFailureStillAcks_witness :
    handleClient true false [[0, 0, 0, 3], [9, 9], [9]] =
      { savedFile := none, sentOK := true, closed := true } :=
  C2_storageFailureStillAcks [9, 9, 9] [[0, 0, 0, 3], [9, 9], [9]]
    (by decide) (by decide) (by decide) (by decide)

/-- C3: for every byte count `n` and every fragmentation of the incoming
stream into arbitrary-sized non-empty chunks totalling at least `n` bytes,
`_receive_all` returns exactly `n` bytes equal to the first `n` bytes of the
stream, regardless of chunk boundaries. -/
theorem C3_readExact (n : Nat) (chunks : Stream)
    (hch : ∀ c ∈ chunks, c ≠ []) (htot : n ≤ chunks.flatten.length) :
    (receiveAll chunks n).fst = some (chunks.flatten.take n) ∧
    (receiveAll chunks n).fst.map List.length = some n := by
  obtain ⟨rest, h1, _, _⟩ := receiveAll_complete chunks n hch htot
  refine ⟨by rw [h1], ?_⟩
  rw [h1]
  simp only [Option.map_some', List.length_take, Option.some.injEq]
  omega

/-- C3 witness: reading 4 bytes across a 2/3 chunk split yields the first 4
stream bytes. -/
theorem C3_readExact_witness :
    (receiveAll [[1, 2], [3, 4, 5]] 4).fst = some [1, 2, 3, 4] := by
  have h := C3_readExact 4 [[1, 2], [3, 4, 5]] (by decide) (by decide)
  simpa using h.1

/-- C4: when the peer closes the stream strictly before `n` bytes arrive,
`_receive_all` returns `None` instead of partial data; and a connection whose
declared payload is truncated makes `_handle_client` abort with no file
written and no response sent (the socket still being closed). -/
theorem C4_incompleteStream (n : Nat) (chunks : Stream)
    (hch : ∀ c ∈ chunks, c ≠ []) :
    (chunks.flatten.length < n → (receiveAll chunks n).fst = none) ∧
    (∀ (sf sendF : Bool) (m : Nat) (Q : List Nat), m < 4294967296 →
      Q.length < m → chunks.flatten = encodeBE32 m ++ Q →
      handleClient sf sendF chunks =
        { savedFile := none, sentOK := false, closed := true }) := by
  refine ⟨fun h => receiveAll_incomplete chunks n hch h, ?_⟩
  intro sf sendF m Q hm hQ hj
  exact handleClient_truncated sf sendF m Q chunks hm hch hQ hj

/-- C4 witness: the spec scenario — header declares 10 bytes, the peer
disconnects after 3 payload bytes: the read fails and the handler aborts. -/
theorem C4_incompleteStream_witness :
    (receiveAll [[0, 0, 0, 10, 1, 2], [3]] 10).fst = none ∧
    handleClient false false [[0, 0, 0, 10, 1, 2], [3]] =
      { savedFile := none, sentOK := false, closed := true } := by
  have h := C4_incompleteStream 10 [[0, 0, 0, 10, 1, 2], [3]] (by decide)
  exact ⟨h.1 (by decide),
    h.2 false false 10 [1, 2, 3] (by decide) (by decide) (by decide)⟩

/-- C5: a declared payload size of 0 makes `_receive_all` return the empty
byte string (for any stream state), and `_handle_client` treats that empty
result as a failed read: it returns early, so no file is created and no "OK"
is sent even though the full (empty) payload arrived. -/
theorem C5_zeroDeclaredSize (chunks : Stream) (sf sendF : Bool)
    (hch : ∀ c ∈ chunks, c ≠ [])
    (hjoin : chunks.flatten.take 4 = [0, 0, 0, 0])
    (hlen : 4 ≤ chunks.flatten.length) :
    (∀ cs : Stream, (receiveAll cs 0).fst = some []) ∧
    handleClient sf sendF chunks =
      { savedFile := none, sentOK := false, closed := true } := by
  refine ⟨fun cs => by cases cs <;> rfl, ?_⟩
  obtain ⟨rest, hr1, _, _⟩ := receiveAll_complete chunks 4 hch hlen
  rw [hjoin] at hr1
  have hb0 : beU32 [0, 0, 0, 0] = 0 := rfl
  have h0 : (receiveAll rest 0).fst = some [] := by cases rest <;> rfl
  simp [handleClient, hr1, hb0, h0]

/-- C5 witness: a connection sending exactly the header `00 00 00 00`. -/
theorem C5_zeroDeclaredSize_witness :
    handleClient false false [[0, 0, 0, 0]] =
      { savedFile := none, sentOK := false, closed := true } :=
  (C5_zeroDeclaredSize [[0, 0, 0, 0]] false false (by decide) (by decide)
    (by decide)).2

/-- C6 counterexample: a server initialized on 2025-01-01 that saves a
payload on 2025-01-02 at 12:00:00 writes under the `2025-01-01` partition:
`create_data_directory` runs only in `__init__`, so the date directory comes
from the initialization-time clock, not — as the claim states — from the
clock at the time the payload is saved. -/
theorem C6_counterexample :
    serverSavedPath ["srv"] ⟨2025, 1, 1, 9, 0, 0⟩ ⟨2025, 1, 2, 12, 0, 0⟩ ≠
      claimSavedPath ["srv"] ⟨2025, 1, 2, 12, 0, 0⟩ ∧
    serverSavedPath ["srv"] ⟨2025, 1, 1, 9, 0, 0⟩ ⟨2025, 1, 2, 12, 0, 0⟩ =
      ["srv", "data", "2025-01-01", "120000.jpg"] := by
  decide

/-- C6 (amended): every successfully persisted payload is written to the
path base directory / data / YYYY-MM-DD / HHMMSS.jpg, where the date
component of the directory is derived from the local server clock at server
initialization and the time-of-day component of the filename from the local
server clock at the time the payload is saved. -/
theorem C6_savedPathShape (base : FsPath) (initTime saveTime : DateTime) :
    serverSavedPath base initTime saveTime =
      amendedSavedPath base initTime saveTime := by
  simp [serverSavedPath, savedFilePath, dataDirPath, amendedSavedPath]

/-- C7: `_handle_client` closes the client socket when it exits, on every
path: successful transfer, failed or empty header read, failed or empty
payload read, storage failure and send failure alike (the `finally` block
runs unconditionally). -/
theorem C7_alwaysCloses (storageFails sendFails : Bool) (chunks : Stream) :
    (handleClient storageFails sendFails chunks).closed = true := by
  dsimp only [handleClient]
  repeat' split
  all_goals rfl

/-- C8: `stop_server` transitions the server state to not-running and closes
the listening socket; the transition is idempotent (once stopped, a repeat
stop changes nothing and nothing modeled sets the flag back), and an
`accept` call that fails once the flag is already false makes the accept
loop exit cleanly rather than raise. -/
theorem C8_shutdown (s : ServerState) :
    (stopServer s).running = false ∧
    (stopServer s).socketOpen = false ∧
    stopServer (stopServer s) = stopServer s ∧
    acceptIteration true (stopServer s).running true = LoopOutcome.exitClean :=
  ⟨rfl, rfl, rfl, rfl⟩

/-- C9: creating the dated partition directory when it already exists is
idempotent: `os.makedirs(..., exist_ok=True)` raises no error and leaves the
filesystem — directories and files alike — exactly as it was, whatever its
prior state. -/
theorem C9_partitionIdempotent (fs : FileSystem) (base : FsPath)
    (initTime : DateTime) (h : dataDirPath base initTime ∈ fs.dirs) :
    createDataDirectory fs base initTime =
      Except.ok (fs, dataDirPath base initTime) := by
  simp [createDataDirectory, makedirs, h]

/-- C9 witness: re-creating an existing partition (with a file already in
it) succeeds and changes nothing. -/
theorem C9_partitionIdempotent_witness :
    createDataDirectory
      { dirs := [["srv", "data", "2025-10-12"]],
        files := [(["srv", "data", "2025-10-12", "101010.jpg"], [1, 2])] }
      ["srv"] ⟨2025, 10, 12, 0, 0, 0⟩ =
      Except.ok
        ({ dirs := [["srv", "data", "2025-10-12"]],
           files := [(["srv", "data", "2025-10-12", "101010.jpg"], [1, 2])] },
         ["srv", "data", "2025-10-12"]) :=
  C9_partitionIdempotent
    { dirs := [["srv", "data", "2025-10-12"]],
      files := [(["srv", "data", "2025-10-12", "101010.jpg"], [1, 2])] }
    ["srv"] ⟨2025, 10, 12, 0, 0, 0⟩ (by decide)

/-- C10: any 4 header bytes decode as a big-endian unsigned 32-bit integer,
so the declared payload size lies in [0, 2^32 - 1]; and no upper bound on it
is enforced: whatever the declared value, the handler attempts to read
exactly that many payload bytes and completes the transfer whenever the
stream supplies them. -/
theorem C10_headerRange (b : List Nat) (h4 : b.length = 4)
    (hb : ∀ x ∈ b, x < 256) :
    beU32 b < 4294967296 ∧
    ∀ P : List Nat, P ≠ [] → P.length = beU32 b →
      handleClient false false [b ++ P] =
        { savedFile := some P, sentOK := true, closed := true } := by
  refine ⟨beU32_lt_of_bytes b h4 hb, ?_⟩
  intro P hP hPlen
  have henc : encodeBE32 P.length = b := by
    rw [hPlen, encodeBE32_beU32 b h4 hb]
  have hbP : b ++ P ≠ [] := by
    intro hcon
    have : b = [] := List.append_eq_nil.mp hcon |>.1
    rw [this] at h4
    simp at h4
  have := handleClient_success false false P [b ++ P] hP
    (by rw [hPlen]; exact beU32_lt_of_bytes b h4 hb)
    (by intro c hc; simp only [List.mem_singleton] at hc; rw [hc]; exact hbP)
    (by simp [henc])
  simpa [saveAndDisplayImage] using this

/-- C10 witness: the header `00 00 00 02` declares 2 bytes, which are read
and saved in full. -/
theorem C10_headerRange_witness :
    beU32 [0, 0, 0, 2] < 4294967296 ∧
    handleClient false false [[0, 0, 0, 2] ++ [7, 8]] =
      { savedFile := some [7, 8], sentOK := true, closed := true } := by
  have h := C10_headerRange [0, 0, 0, 2] (by decide) (by decide)
  exact ⟨h.1, h.2 [7, 8] (by decide) (by decide)⟩

end PhotoServer
